import Mathlib

/-!
Shallow embedding of the Component Identification Engine of
`src/lib/rekognition.js` (class `ComponentAnalyzer`), together with the
rule tables it uses from `src/lib/constants.js`.

Conventions of the embedding:
* JavaScript numbers (Rekognition confidence scores) are modelled as `ℚ`.
* JavaScript strings are Lean `String`s; all character-level operations
  (`toLowerCase`, `toUpperCase`, `includes`, `trim`, `substring`) are
  modelled on the underlying `List Char`.
* The regular expressions of the source are embedded as deterministic
  scanners.  Each pattern is unanchored, so the scanner tries every start
  position from the left, exactly like `String.prototype.match`; at a given
  start position every quantifier of these particular patterns is
  deterministic (giving characters back from a greedy `\d+`, `\.?`, `\s*`,
  or an optional character class can never turn a failure into a success,
  because the character that would have to be re-matched by the following
  token is never accepted by it), so greedy left-to-right parsing computes
  exactly the JavaScript match and its capture groups.
* The `/i` flag is modelled by JavaScript's canonicalisation (case folding
  through `toUpperCase`, keeping non-ASCII characters that would fold to
  ASCII unfolded), covering the non-ASCII characters appearing in the
  patterns (`Ω`, `µ`, `μ`).
-/

/-- JavaScript `\s` / `trim` whitespace set (WhiteSpace ∪ LineTerminator). -/
def isJsSpace (c : Char) : Bool :=
  c = ' ' || c = '\t' || c = '\n' || c = '\r' || c.val = 11 || c.val = 12 ||
  c.val = 0xa0 || c.val = 0x1680 || (0x2000 ≤ c.val && c.val ≤ 0x200a) ||
  c.val = 0x2028 || c.val = 0x2029 || c.val = 0x202f || c.val = 0x205f ||
  c.val = 0x3000 || c.val = 0xfeff

/-- Case canonicalisation used by the `/i` flag (ECMAScript Canonicalize in
non-Unicode mode): upper-case the character, except that a non-ASCII
character never canonicalises to an ASCII one.  Covers the non-ASCII
characters relevant to the embedded patterns. -/
def jsFold (c : Char) : Char :=
  if c = 'ω' then 'Ω'
  else if c = 'µ' then 'Μ'
  else if c = 'μ' then 'Μ'
  else c.toUpper

/-- Two characters match under the `/i` flag. -/
def jsCharMatchCI (x p : Char) : Bool := jsFold x = jsFold p

/-- Whether the list `cs` starts with `ps` (character-exact). -/
def startsList : List Char → List Char → Bool
  | [], _ => true
  | _ :: _, [] => false
  | p :: ps, c :: cs => p = c && startsList ps cs

/-- Whether the list `cs` starts with pattern characters `ps`
up to `/i` canonicalisation. -/
def ciStarts : List Char → List Char → Bool
  | [], _ => true
  | _ :: _, [] => false
  | p :: ps, c :: cs => jsCharMatchCI c p && ciStarts ps cs

def strIncludesAux (needle : List Char) : List Char → Bool
  | [] => needle.isEmpty
  | c :: t => startsList needle (c :: t) || strIncludesAux needle t

/-- JavaScript `hay.includes(needle)`. -/
def jsIncludes (hay needle : String) : Bool := strIncludesAux needle.data hay.data

/-- JavaScript `String.prototype.toLowerCase` (ASCII-faithful). -/
def jsToLower (s : String) : String := String.mk (s.data.map Char.toLower)

def jsUpperChar (c : Char) : Char := if c = 'ſ' then 'S' else c.toUpper

/-- JavaScript `String.prototype.toUpperCase`, character-wise. -/
def jsToUpper (s : String) : String := String.mk (s.data.map jsUpperChar)

/-- JavaScript `String.prototype.trim`. -/
def jsTrim (s : String) : String :=
  String.mk (((s.data.dropWhile isJsSpace).reverse.dropWhile isJsSpace).reverse)

/-- JavaScript `s.substring(0, 2)`. -/
def jsSubstring02 (s : String) : String := String.mk (s.data.take 2)

/-- JavaScript truthiness of a nullable string (`null` and `""` are falsy). -/
def jsTruthy : Option String → Bool
  | some s => !s.isEmpty
  | none => false

/-- JavaScript `Number.prototype.toFixed(1)` on a non-negative exact value: the integer
`n` with `n / 10` closest to the value, ties taking the larger `n`; that is
`n = ⌊10·q + 1/2⌋`, computed on the exact fraction as
`⌊(20·num + den) / (2·den)⌋`. -/
def toFixed1Nonneg (q : ℚ) : String :=
  let n : ℕ := (Int.fdiv (20 * q.num + (q.den : ℤ)) (2 * (q.den : ℤ))).toNat
  Nat.repr (n / 10) ++ "." ++ Nat.repr (n % 10)

/-- JavaScript `q.toFixed(1)`. -/
def toFixed1 (q : ℚ) : String :=
  if q < 0 then "-" ++ toFixed1Nonneg (-q) else toFixed1Nonneg q

/-! ## Data model -/

/-- A Rekognition label (`{ Name, Confidence }`). -/
structure Label where
  Name : String
  Confidence : ℚ
deriving DecidableEq, Repr

/-- A Rekognition text detection (`{ DetectedText, Type, Confidence }`),
where `Type` is the granularity (`"LINE"` or `"WORD"`). -/
structure TextDetection where
  DetectedText : String
  «Type» : String
  Confidence : ℚ
deriving DecidableEq, Repr

/-- One entry of `componentData.possibleTypes`. -/
structure TypeMatch where
  type : String
  confidence : ℚ
  matchedLabel : String
deriving DecidableEq, Repr

/-- One entry of `componentData.detectedLabels`. -/
structure DetectedLabel where
  name : String
  confidence : ℚ
deriving DecidableEq, Repr

/-- One entry of `componentData.detectedText`. -/
structure DetectedTextEntry where
  text : String
  confidence : ℚ
deriving DecidableEq, Repr

/-- Result of `analyzeResistor`. -/
structure ResistorAnalysis where
  hasColorBands : Bool
  detectedColors : List String
  estimatedValue : Option String
  note : Option String
deriving DecidableEq, Repr

/-- Result of `analyzeCapacitor`. -/
structure CapacitorAnalysis where
  estimatedValue : Option String
  voltage : Option String
deriving DecidableEq, Repr

/-- Result of `analyzeIC`. -/
structure ICAnalysis where
  partNumbers : List String
  manufacturers : List String
deriving DecidableEq, Repr

/-- The `componentData.analysis` bag: at most one of the three present. -/
structure Analysis where
  resistor : Option ResistorAnalysis
  capacitor : Option CapacitorAnalysis
  ic : Option ICAnalysis
deriving DecidableEq, Repr

/-- The identification result built by `interpretResults`. -/
structure ComponentData where
  confidence : ℚ
  type : String
  possibleTypes : List TypeMatch
  detectedLabels : List DetectedLabel
  detectedText : List DetectedTextEntry
  analysis : Analysis
deriving DecidableEq, Repr

/-! ## Rule tables (`constants.js` and the literals of `rekognition.js`) -/

/-- The `ResistorColorCodes` table of `src/lib/constants.js` (keys in object order). -/
def ResistorColorCodes : List (String × ℕ) :=
  [("BLACK", 0), ("BROWN", 1), ("RED", 2), ("ORANGE", 3), ("YELLOW", 4),
   ("GREEN", 5), ("BLUE", 6), ("VIOLET", 7), ("GREY", 8), ("WHITE", 9)]

/-- The `typeKeywords` table of `identifyComponentType`, in the object's
insertion order (the order `Object.entries` iterates). -/
def typeKeywords : List (String × List String) :=
  [("resistor", ["resistor", "resistance", "band", "cylinder", "electronic component"]),
   ("capacitor", ["capacitor", "electrolytic", "ceramic"]),
   ("diode", ["diode", "led", "semiconductor"]),
   ("transistor", ["transistor", "mosfet", "bjt"]),
   ("integrated_circuit", ["chip", "ic", "microchip", "processor", "circuit board"]),
   ("connector", ["connector", "pin", "header", "socket"]),
   ("inductor", ["inductor", "coil"])]

/-- The `manufacturerPrefixes` list of `analyzeIC`. -/
def manufacturerPrefixes : List String :=
  ["74", "CD", "LM", "TL", "NE", "MC", "SN", "AD", "MAX"]

/-! ## Embedded regular expressions -/

/-- Greedy parse of `(\d+\.?\d*)` at the head of `cs`; returns the capture
and the rest, or `none` when no digit is present. -/
def numGroupHere (cs : List Char) : Option (List Char × List Char) :=
  let d1 := cs.takeWhile Char.isDigit
  let r1 := cs.dropWhile Char.isDigit
  if d1.isEmpty then none
  else
    match r1 with
    | '.' :: t =>
        some (d1 ++ '.' :: t.takeWhile Char.isDigit, t.dropWhile Char.isDigit)
    | _ => some (d1, r1)

/-- The alternation `(Ω|ohm|R)` under `/i`, matched at the head of `cs`. -/
def omegaAltHere (cs : List Char) : Bool :=
  ciStarts ['Ω'] cs || ciStarts ['o', 'h', 'm'] cs || ciStarts ['R'] cs

/-- One attempt of `/(\d+\.?\d*)\s*([kKmM]?)(Ω|ohm|R)/i` at the current
position; returns capture groups 1 and 2. -/
def resMatchHere (cs : List Char) : Option (List Char × List Char) :=
  match numGroupHere cs with
  | none => none
  | some (g1, r1) =>
    let r2 := r1.dropWhile isJsSpace
    match r2 with
    | c :: t =>
        if c = 'k' || c = 'K' || c = 'm' || c = 'M' then
          if omegaAltHere t then some (g1, [c]) else none
        else if omegaAltHere r2 then some (g1, []) else none
    | [] => none

/-- Leftmost match of the resistance pattern. -/
def resSearch : List Char → Option (List Char × List Char)
  | [] => resMatchHere []
  | c :: t =>
    match resMatchHere (c :: t) with
    | some r => some r
    | none => resSearch t

/-- JavaScript `text.match(resistancePattern)` followed by the source's formatting
`` `${match[1]}${match[2]}Ω` ``. -/
def resistanceValue (text : String) : Option String :=
  (resSearch text.data).map (fun g => String.mk (g.1 ++ g.2 ++ ['Ω']))

/-- One attempt of `/(\d+\.?\d*)\s*([µuμpnm]?F)/i` at the current position;
returns capture groups 1 and 2 (group 2 keeps the input's characters). -/
def capMatchHere (cs : List Char) : Option (List Char × List Char) :=
  match numGroupHere cs with
  | none => none
  | some (g1, r1) =>
    let r2 := r1.dropWhile isJsSpace
    match r2 with
    | c :: t =>
        if jsCharMatchCI c 'µ' || jsCharMatchCI c 'u' || jsCharMatchCI c 'μ' ||
           jsCharMatchCI c 'p' || jsCharMatchCI c 'n' || jsCharMatchCI c 'm' then
          match t with
          | f :: _ => if jsCharMatchCI f 'F' then some (g1, [c, f]) else none
          | [] => none
        else if jsCharMatchCI c 'F' then some (g1, [c]) else none
    | [] => none

/-- Leftmost match of the capacitance pattern. -/
def capSearch : List Char → Option (List Char × List Char)
  | [] => capMatchHere []
  | c :: t =>
    match capMatchHere (c :: t) with
    | some r => some r
    | none => capSearch t

/-- JavaScript `text.match(capacitancePattern)` followed by the source's formatting
`` `${capMatch[1]}${capMatch[2]}` ``. -/
def capacitanceValue (text : String) : Option String :=
  (capSearch text.data).map (fun g => String.mk (g.1 ++ g.2))

/-- One attempt of `/(\d+)\s*V/i` at the current position; returns capture
group 1. -/
def voltMatchHere (cs : List Char) : Option (List Char) :=
  let d1 := cs.takeWhile Char.isDigit
  let r1 := cs.dropWhile Char.isDigit
  if d1.isEmpty then none
  else
    match r1.dropWhile isJsSpace with
    | c :: _ => if jsCharMatchCI c 'V' then some d1 else none
    | [] => none

/-- Leftmost match of the voltage pattern. -/
def voltSearch : List Char → Option (List Char)
  | [] => voltMatchHere []
  | c :: t =>
    match voltMatchHere (c :: t) with
    | some r => some r
    | none => voltSearch t

/-- JavaScript `text.match(voltagePattern)` followed by the source's formatting
`` `${voltMatch[1]}V` ``. -/
def voltageValue (text : String) : Option String :=
  (voltSearch text.data).map (fun d => String.mk (d ++ ['V']))

/-- JavaScript `/^[A-Z0-9]{4,12}$/i.test(s)`: with both anchors, the greedy bounded
repetition accepts exactly the strings of length 4–12 whose characters all
lie in the class (ASCII letters of either case and digits; under `/i` in
non-Unicode mode no non-ASCII character folds into the class). -/
def isPartNumber (s : String) : Bool :=
  4 ≤ s.data.length && s.data.length ≤ 12 &&
    s.data.all (fun c => c.isDigit || ('A' ≤ c && c ≤ 'Z') || ('a' ≤ c && c ≤ 'z'))

/-! ## The engine -/

/-- One label matches a type's keyword set:
`keywords.some(keyword => labelLower.includes(keyword))`. -/
def labelMatchesKeywords (keywords : List String) (label : Label) : Bool :=
  keywords.any (fun keyword => jsIncludes (jsToLower label.Name) keyword)

/-- Stable insertion preserving descending confidence: the inserted element
goes before the first element whose confidence is not larger (JavaScript's
`sort` is stable, so an earlier element precedes equal-confidence later
ones). -/
def insertDesc (x : TypeMatch) : List TypeMatch → List TypeMatch
  | [] => [x]
  | y :: ys => if y.confidence ≤ x.confidence then x :: y :: ys else y :: insertDesc x ys

/-- Stable sort by confidence descending, the result of
`matches.sort((a, b) => b.confidence - a.confidence)`. -/
def sortMatchesDesc : List TypeMatch → List TypeMatch
  | [] => []
  | x :: xs => insertDesc x (sortMatchesDesc xs)

/-- The source's `identifyComponentType(labels)`: for each entry of `typeKeywords` the
inner `for … break` takes the first matching label (`List.find?`); the
collected matches are then sorted by confidence descending. -/
def identifyComponentType (labels : List Label) : List TypeMatch :=
  sortMatchesDesc
    (typeKeywords.filterMap (fun tk =>
      (labels.find? (fun label => labelMatchesKeywords tk.2 label)).map
        (fun label => ⟨tk.1, label.Confidence, label.Name⟩)))

/-- The color-label filter of `analyzeResistor`:
`Object.keys(ResistorColorCodes).some(color => l.Name.toLowerCase().includes(color.toLowerCase()))`. -/
def isColorLabel (l : Label) : Bool :=
  (ResistorColorCodes.map (fun p => p.1)).any
    (fun color => jsIncludes (jsToLower l.Name) (jsToLower color))

/-- The LINE-filtered text list every extractor starts from:
`textDetections.filter(t => t.Type === 'LINE').map(t => t.DetectedText)`. -/
def lineTexts (textDetections : List TextDetection) : List String :=
  (textDetections.filter (fun t => decide (t.«Type» = "LINE"))).map
    (fun t => t.DetectedText)

/-- The source's `analyzeResistor(labels, textDetections)`. -/
def analyzeResistor (labels : List Label) (textDetections : List TextDetection) :
    ResistorAnalysis :=
  let colorLabels := labels.filter isColorLabel
  let hasColorBands := 2 ≤ colorLabels.length
  { hasColorBands := hasColorBands
    detectedColors := if hasColorBands then colorLabels.map (fun l => l.Name) else []
    estimatedValue := (lineTexts textDetections).findSome? resistanceValue
    note := if hasColorBands then some "Resistor identified with visible color bands" else none }

/-- One iteration of the `analyzeCapacitor` loop: a match of either pattern
overwrites the field (so the last matching line wins). -/
def capacitorStep (analysis : CapacitorAnalysis) (text : String) : CapacitorAnalysis :=
  let analysis :=
    match capacitanceValue text with
    | some v => { analysis with estimatedValue := some v }
    | none => analysis
  match voltageValue text with
  | some v => { analysis with voltage := some v }
  | none => analysis

/-- The source's `analyzeCapacitor(textDetections)`. -/
def analyzeCapacitor (textDetections : List TextDetection) : CapacitorAnalysis :=
  (lineTexts textDetections).foldl capacitorStep ⟨none, none⟩

/-- One iteration of the `analyzeIC` loop.  The manufacturer-prefix check is
nested inside the part-number branch of the source, so it only runs for
lines whose trimmed text passes the part-number test; the prefix itself is
taken from the untrimmed line. -/
def icStep (analysis : ICAnalysis) (text : String) : ICAnalysis :=
  if isPartNumber (jsTrim text) then
    let analysis := { analysis with partNumbers := analysis.partNumbers ++ [jsTrim text] }
    let pfx := jsToUpper (jsSubstring02 text)
    if manufacturerPrefixes.contains pfx then
      { analysis with manufacturers := analysis.manufacturers ++ ["Likely " ++ pfx ++ " series"] }
    else analysis
  else analysis

/-- The source's `analyzeIC(textDetections)`. -/
def analyzeIC (textDetections : List TextDetection) : ICAnalysis :=
  (lineTexts textDetections).foldl icStep ⟨[], []⟩

/-- The source's `interpretResults(labels, textDetections)`.  It initialises
`type`/`confidence`/`possibleTypes` to the unknown defaults and overwrites
them when `identifyComponentType` returned at least one match; the
`if / else if` chain on the adopted type then populates exactly one of the
three analysis slots (the three type strings are distinct, so the chain is
the same as three independent conditions). -/
def interpretResults (labels : List Label) (textDetections : List TextDetection) :
    ComponentData :=
  let componentTypes := identifyComponentType labels
  let ty : String := match componentTypes with | [] => "unknown" | m :: _ => m.type
  let conf : ℚ := match componentTypes with | [] => 0 | m :: _ => m.confidence
  { confidence := conf
    type := ty
    possibleTypes := match componentTypes with | [] => [] | _ :: _ => componentTypes
    detectedLabels := labels.map (fun l => ⟨l.Name, l.Confidence⟩)
    detectedText :=
      (textDetections.filter (fun t => decide (t.«Type» = "LINE"))).map
        (fun t => ⟨t.DetectedText, t.Confidence⟩)
    analysis :=
      { resistor := if ty = "resistor" then some (analyzeResistor labels textDetections) else none
        capacitor := if ty = "capacitor" then some (analyzeCapacitor textDetections) else none
        ic := if ty = "integrated_circuit" then some (analyzeIC textDetections) else none } }

/-- The part number `analyzeIC` appends for one line, if any. -/
def partNumberOf (text : String) : Option String :=
  if isPartNumber (jsTrim text) then some (jsTrim text) else none

/-- The manufacturer advisory `analyzeIC` appends for one line, if any:
only lines passing the part-number test are inspected for a prefix. -/
def manufacturerNoteOf (text : String) : Option String :=
  if isPartNumber (jsTrim text) &&
      manufacturerPrefixes.contains (jsToUpper (jsSubstring02 text)) then
    some ("Likely " ++ jsToUpper (jsSubstring02 text) ++ " series")
  else none

/-- The source's `generateIdentificationSummary(analysisResult)`.  The JavaScript truthy
tests on nullable strings are modelled by `jsTruthy`. -/
def generateIdentificationSummary (analysisResult : ComponentData) : String :=
  let summary := "Identified as: " ++ analysisResult.type ++ " (" ++
    toFixed1 analysisResult.confidence ++ "% confidence)"
  if analysisResult.type = "resistor" then
    match analysisResult.analysis.resistor with
    | some ra =>
        if jsTruthy ra.estimatedValue then
          summary ++ "\nEstimated value: " ++ ra.estimatedValue.getD ""
        else if ra.hasColorBands then
          summary ++ "\nColor bands detected: " ++ String.intercalate ", " ra.detectedColors
        else summary
    | none => summary
  else if analysisResult.type = "capacitor" then
    match analysisResult.analysis.capacitor with
    | some ca =>
        let summary :=
          if jsTruthy ca.estimatedValue then
            summary ++ "\nEstimated value: " ++ ca.estimatedValue.getD ""
          else summary
        if jsTruthy ca.voltage then summary ++ "\nRated voltage: " ++ ca.voltage.getD ""
        else summary
    | none => summary
  else if analysisResult.type = "integrated_circuit" then
    match analysisResult.analysis.ic with
    | some ic =>
        if 0 < ic.partNumbers.length then
          summary ++ "\nDetected part numbers: " ++ String.intercalate ", " ic.partNumbers
        else summary
    | none => summary
  else summary

/-! ## Helper lemmas -/

theorem find?_eq_head?_filter {α : Type} (p : α → Bool) :
    ∀ l : List α, l.find? p = (l.filter p).head? := by
  intro l
  induction l with
  | nil => rfl
  | cons a t ih =>
    by_cases h : p a
    · rw [List.find?_cons_of_pos _ h, List.filter_cons_of_pos h, List.head?_cons]
    · rw [List.find?_cons_of_neg _ h, List.filter_cons_of_neg h, ih]

theorem mem_insertDesc (x : TypeMatch) (l : List TypeMatch) :
    ∀ y ∈ insertDesc x l, y = x ∨ y ∈ l := by
  induction l with
  | nil =>
    intro y hy
    simp [insertDesc] at hy
    exact Or.inl hy
  | cons z zs ih =>
    intro y hy
    by_cases hc : z.confidence ≤ x.confidence
    · simp [insertDesc, hc, List.mem_cons] at hy ⊢
      tauto
    · simp [insertDesc, hc, List.mem_cons] at hy
      rcases hy with h | h
      · exact Or.inr (List.mem_cons.mpr (Or.inl h))
      · rcases ih y h with h' | h'
        · exact Or.inl h'
        · exact Or.inr (List.mem_cons.mpr (Or.inr h'))

theorem pairwise_insertDesc (x : TypeMatch) (l : List TypeMatch)
    (h : l.Pairwise (fun a b => b.confidence ≤ a.confidence)) :
    (insertDesc x l).Pairwise (fun a b => b.confidence ≤ a.confidence) := by
  induction l with
  | nil => simp [insertDesc]
  | cons z zs ih =>
    rcases List.pairwise_cons.mp h with ⟨hz, hzs⟩
    by_cases hc : z.confidence ≤ x.confidence
    · simp only [insertDesc, if_pos hc]
      refine List.pairwise_cons.mpr ⟨?_, h⟩
      intro b hb
      rcases List.mem_cons.mp hb with rfl | hb
      · exact hc
      · exact le_trans (hz b hb) hc
    · simp only [insertDesc, if_neg hc]
      refine List.pairwise_cons.mpr ⟨?_, ih hzs⟩
      intro b hb
      rcases mem_insertDesc x zs b hb with rfl | hb
      · exact le_of_lt (lt_of_not_le hc)
      · exact hz b hb

theorem pairwise_sortMatchesDesc (l : List TypeMatch) :
    (sortMatchesDesc l).Pairwise (fun a b => b.confidence ≤ a.confidence) := by
  induction l with
  | nil => simp [sortMatchesDesc]
  | cons x xs ih => exact pairwise_insertDesc x _ ih

theorem pairwise_identifyComponentType (labels : List Label) :
    (identifyComponentType labels).Pairwise (fun a b => b.confidence ≤ a.confidence) :=
  pairwise_sortMatchesDesc _

theorem filter_insertDesc (q : ℚ) (x : TypeMatch) (l : List TypeMatch) :
    (insertDesc x l).filter (fun m => decide (m.confidence = q)) =
      (x :: l).filter (fun m => decide (m.confidence = q)) := by
  induction l with
  | nil => rfl
  | cons y ys ih =>
    by_cases hc : y.confidence ≤ x.confidence
    · simp only [insertDesc, if_pos hc]
    · simp only [insertDesc, if_neg hc]
      by_cases hx : x.confidence = q
      · have hy : ¬ y.confidence = q := by
          intro hy
          exact hc (le_of_eq (hy.trans hx.symm))
        have ih' : (insertDesc x ys).filter (fun m => decide (m.confidence = q)) =
            x :: ys.filter (fun m => decide (m.confidence = q)) := by
          simpa [List.filter_cons, hx] using ih
        simp [List.filter_cons, hx, hy, ih']
      · have ih' : (insertDesc x ys).filter (fun m => decide (m.confidence = q)) =
            ys.filter (fun m => decide (m.confidence = q)) := by
          simpa [List.filter_cons, hx] using ih
        simp [List.filter_cons, hx, ih']

theorem filter_sortMatchesDesc (q : ℚ) (l : List TypeMatch) :
    (sortMatchesDesc l).filter (fun m => decide (m.confidence = q)) =
      l.filter (fun m => decide (m.confidence = q)) := by
  induction l with
  | nil => rfl
  | cons x xs ih =>
    calc (sortMatchesDesc (x :: xs)).filter (fun m => decide (m.confidence = q))
        = (x :: sortMatchesDesc xs).filter (fun m => decide (m.confidence = q)) :=
          filter_insertDesc q x (sortMatchesDesc xs)
      _ = (x :: xs).filter (fun m => decide (m.confidence = q)) := by
          simp [List.filter_cons, ih]

theorem findSome?_eq_some_iff {α β : Type} (f : α → Option β) (v : β) :
    ∀ l : List α, (l.findSome? f = some v ↔
      ∃ pre x post, l = pre ++ x :: post ∧ (∀ y ∈ pre, f y = none) ∧ f x = some v) := by
  intro l
  induction l with
  | nil =>
    constructor
    · intro h
      simp [List.findSome?] at h
    · rintro ⟨pre, x, post, heq, -, -⟩
      exact absurd heq.symm (List.append_ne_nil_of_right_ne_nil pre (List.cons_ne_nil x post))
  | cons a t ih =>
    cases hfa : f a with
    | some b =>
      rw [List.findSome?_cons, hfa]
      constructor
      · intro h
        exact ⟨[], a, t, rfl, by simp, by rw [hfa]; exact h⟩
      · rintro ⟨pre, x, post, heq, hpre, hx⟩
        cases pre with
        | nil =>
          simp at heq
          rw [← heq.1, hfa] at hx
          simpa using hx
        | cons p ps =>
          have hp : f p = none := hpre p (List.mem_cons_self p ps)
          simp at heq
          rw [← heq.1, hfa] at hp
          simp at hp
    | none =>
      rw [List.findSome?_cons, hfa]
      constructor
      · intro h
        rcases (ih.mp h) with ⟨pre, x, post, heq, hpre, hx⟩
        refine ⟨a :: pre, x, post, by simp [heq], ?_, hx⟩
        intro y hy
        rcases List.mem_cons.mp hy with rfl | hy
        · exact hfa
        · exact hpre y hy
      · rintro ⟨pre, x, post, heq, hpre, hx⟩
        cases pre with
        | nil =>
          simp at heq
          rw [← heq.1, hfa] at hx
          simp at hx
        | cons p ps =>
          simp at heq
          refine ih.mpr ⟨ps, x, post, heq.2, ?_, hx⟩
          intro y hy
          exact hpre y (List.mem_cons.mpr (Or.inr hy))

theorem getLast?_cons_or {α : Type} :
    ∀ (fs : List α) (c : α) (e : Option α),
      ((c :: fs).getLast?).or e = (fs.getLast?).or (some c) := by
  intro fs
  induction fs with
  | nil => intro c e; simp
  | cons g gs ih =>
    intro c e
    rw [List.getLast?_cons_cons, ih g e, ih g (some c)]

theorem foldl_capacitorStep (texts : List String) :
    ∀ e v : Option String,
      texts.foldl capacitorStep ⟨e, v⟩ =
        ⟨((texts.filterMap capacitanceValue).getLast?).or e,
         ((texts.filterMap voltageValue).getLast?).or v⟩ := by
  induction texts with
  | nil => intro e v; simp
  | cons t ts ih =>
    intro e v
    rw [List.foldl_cons]
    cases hc : capacitanceValue t with
    | some c =>
      cases hv : voltageValue t with
      | some w =>
        simp only [capacitorStep, hc, hv, ih, List.filterMap_cons]
        rw [getLast?_cons_or, getLast?_cons_or]
      | none =>
        simp only [capacitorStep, hc, hv, ih, List.filterMap_cons]
        rw [getLast?_cons_or]
    | none =>
      cases hv : voltageValue t with
      | some w =>
        simp only [capacitorStep, hc, hv, ih, List.filterMap_cons]
        rw [getLast?_cons_or]
      | none =>
        simp only [capacitorStep, hc, hv, ih, List.filterMap_cons]

theorem foldl_icStep (texts : List String) :
    ∀ pns mfs : List String,
      texts.foldl icStep ⟨pns, mfs⟩ =
        ⟨pns ++ texts.filterMap partNumberOf, mfs ++ texts.filterMap manufacturerNoteOf⟩ := by
  induction texts with
  | nil => intro pns mfs; simp
  | cons t ts ih =>
    intro pns mfs
    rw [List.foldl_cons]
    by_cases hp : isPartNumber (jsTrim t) = true
    · by_cases hm : jsToUpper (jsSubstring02 t) ∈ manufacturerPrefixes
      · simp [icStep, hp, hm, partNumberOf, manufacturerNoteOf, ih, List.filterMap_cons]
      · simp [icStep, hp, hm, partNumberOf, manufacturerNoteOf, ih, List.filterMap_cons]
    · simp [icStep, hp, partNumberOf, manufacturerNoteOf, ih, List.filterMap_cons]

/-! ## Claims -/

/-- C8: on empty label and text-detection sequences `interpretResults`
returns the designed fallback — type `"unknown"`, confidence `0`, empty
`possibleTypes`, `detectedLabels` and `detectedText`, and no
category-specific analysis — rather than failing. -/
theorem interpretResults_empty_fallback :
    interpretResults [] [] =
      { confidence := 0, type := "unknown", possibleTypes := [],
        detectedLabels := [], detectedText := [],
        analysis := { resistor := none, capacitor := none, ic := none } } := by
  decide

/-- C10: in `analyzeCapacitor` the capacitance unit character is optional:
a bare `<number>F` line such as `"100F"` matches the implemented pattern,
so `estimatedValue` is set to `"100F"`. -/
theorem analyzeCapacitor_unit_optional :
    capacitanceValue "100F" = some "100F" ∧
    analyzeCapacitor [{ DetectedText := "100F", «Type» := "LINE", Confidence := 90 }] =
      { estimatedValue := some "100F", voltage := none } := by
  decide

/-- C3 counterexample: the line `"LM"` has a first-two-character
manufacturer code in the list, yet `analyzeIC` appends nothing to
`manufacturers`, because the prefix check only runs on lines that pass the
part-number test (which `"LM"`, being too short, fails). -/
theorem analyzeIC_manufacturer_check_not_independent :
    jsToUpper (jsSubstring02 "LM") ∈ manufacturerPrefixes ∧
    isPartNumber (jsTrim "LM") = false ∧
    (analyzeIC [{ DetectedText := "LM", «Type» := "LINE", Confidence := 90 }]).manufacturers
      = [] := by
  decide

/-- C3 (amended): `analyzeIC` appends, per LINE in order, the trimmed line
to `partNumbers` when it matches the part-number pattern, and — only for
such part-number lines — the advisory `"Likely <prefix> series"` to
`manufacturers` when the first two characters of the untrimmed line,
uppercased, are in the manufacturer-prefix list; duplicates are retained in
both lists.  In particular `"LM358"` yields both a part number and the
advisory. -/
theorem analyzeIC_characterization (textDetections : List TextDetection) :
    analyzeIC textDetections =
      { partNumbers := (lineTexts textDetections).filterMap partNumberOf,
        manufacturers := (lineTexts textDetections).filterMap manufacturerNoteOf } ∧
    analyzeIC [{ DetectedText := "LM358", «Type» := "LINE", Confidence := 90 }] =
      { partNumbers := ["LM358"], manufacturers := ["Likely LM series"] } := by
  constructor
  · have h := foldl_icStep (lineTexts textDetections) [] []
    simpa [analyzeIC] using h
  · decide

/-- C4: `analyzeCapacitor` scans all LINE texts with no early exit, testing
both patterns against every line; for each of `estimatedValue` and
`voltage` the last matching line in iteration order determines the stored
value, and on `["10uF", "16V", "22uF"]` it returns `estimatedValue =
"22uF"` and `voltage = "16V"`. -/
theorem analyzeCapacitor_lastMatchWins (textDetections : List TextDetection) :
    (analyzeCapacitor textDetections).estimatedValue =
      ((lineTexts textDetections).filterMap capacitanceValue).getLast? ∧
    (analyzeCapacitor textDetections).voltage =
      ((lineTexts textDetections).filterMap voltageValue).getLast? ∧
    analyzeCapacitor
        [{ DetectedText := "10uF", «Type» := "LINE", Confidence := 90 },
         { DetectedText := "16V", «Type» := "LINE", Confidence := 90 },
         { DetectedText := "22uF", «Type» := "LINE", Confidence := 90 }] =
      { estimatedValue := some "22uF", voltage := some "16V" } := by
  refine ⟨?_, ?_, by decide⟩
  · have h := foldl_capacitorStep (lineTexts textDetections) none none
    simp [analyzeCapacitor, h]
  · have h := foldl_capacitorStep (lineTexts textDetections) none none
    simp [analyzeCapacitor, h]

/-- C5: `analyzeResistor` scans LINE texts in order and the first line
matching the resistance pattern determines `estimatedValue` (formatted
`<number><multiplier>Ω`), scanning stopping on the first success; on
`["100Ω", "1kΩ"]` the result is `"100Ω"` even though `"1kΩ"` also
matches. -/
theorem analyzeResistor_firstMatchWins (labels : List Label)
    (textDetections : List TextDetection) :
    (∀ v : String, (analyzeResistor labels textDetections).estimatedValue = some v ↔
      ∃ pre t post, lineTexts textDetections = pre ++ t :: post ∧
        (∀ u ∈ pre, resistanceValue u = none) ∧ resistanceValue t = some v) ∧
    resistanceValue "1kΩ" = some "1kΩ" ∧
    (analyzeResistor []
        [{ DetectedText := "100Ω", «Type» := "LINE", Confidence := 90 },
         { DetectedText := "1kΩ", «Type» := "LINE", Confidence := 90 }]).estimatedValue =
      some "100Ω" := by
  refine ⟨?_, by decide, by decide⟩
  intro v
  have h : (analyzeResistor labels textDetections).estimatedValue =
      (lineTexts textDetections).findSome? resistanceValue := rfl
  rw [h]
  exact findSome?_eq_some_iff resistanceValue v (lineTexts textDetections)

/-- C5 witness: the characterisation applied at the concrete input
`["100Ω", "1kΩ"]`. -/
theorem analyzeResistor_firstMatchWins_witness :
    (analyzeResistor []
        [{ DetectedText := "100Ω", «Type» := "LINE", Confidence := 90 },
         { DetectedText := "1kΩ", «Type» := "LINE", Confidence := 90 }]).estimatedValue =
      some "100Ω" :=
  ((analyzeResistor_firstMatchWins []
      [{ DetectedText := "100Ω", «Type» := "LINE", Confidence := 90 },
       { DetectedText := "1kΩ", «Type» := "LINE", Confidence := 90 }]).1 "100Ω").mpr
    ⟨[], "100Ω",
     ["1kΩ"], by decide, by intro u hu; exact absurd hu (List.not_mem_nil u), by decide⟩

/-- C6: `analyzeResistor` sets `hasColorBands` exactly when at least two
labels have a lowercased name containing one of the ten canonical resistor
color names; in that case `detectedColors` holds the matching labels'
original names verbatim and the fixed advisory note is set.  For labels
`["red band", "brown band"]` it returns `hasColorBands = true` and
`detectedColors = ["red band", "brown band"]`. -/
theorem analyzeResistor_colorBands (labels : List Label)
    (textDetections : List TextDetection) :
    ((analyzeResistor labels textDetections).hasColorBands = true ↔
      2 ≤ (labels.filter (fun l =>
        (["black", "brown", "red", "orange", "yellow", "green", "blue", "violet",
          "grey", "white"]).any
          (fun color => jsIncludes (jsToLower l.Name) color))).length) ∧
    ((analyzeResistor labels textDetections).hasColorBands = true →
      (analyzeResistor labels textDetections).detectedColors =
        (labels.filter isColorLabel).map (fun l => l.Name) ∧
      (analyzeResistor labels textDetections).note =
        some "Resistor identified with visible color bands") ∧
    (analyzeResistor [⟨"red band", 90⟩, ⟨"brown band", 90⟩] []).hasColorBands = true ∧
    (analyzeResistor [⟨"red band", 90⟩, ⟨"brown band", 90⟩] []).detectedColors =
      ["red band", "brown band"] := by
  have hfun : (fun l : Label =>
      (["black", "brown", "red", "orange", "yellow", "green", "blue", "violet",
        "grey", "white"]).any
        (fun color => jsIncludes (jsToLower l.Name) color)) = isColorLabel := by
    funext l
    rfl
  refine ⟨?_, ?_, by decide, by decide⟩
  · rw [hfun]
    constructor
    · intro h
      have : decide (2 ≤ (labels.filter isColorLabel).length) = true := h
      exact of_decide_eq_true this
    · intro h
      show decide (2 ≤ (labels.filter isColorLabel).length) = true
      exact decide_eq_true h
  · intro h
    have hb : decide (2 ≤ (labels.filter isColorLabel).length) = true := h
    have hp : 2 ≤ (labels.filter isColorLabel).length := of_decide_eq_true hb
    constructor
    · show (if 2 ≤ (labels.filter isColorLabel).length then
          (labels.filter isColorLabel).map (fun l => l.Name) else []) =
        (labels.filter isColorLabel).map (fun l => l.Name)
      rw [if_pos hp]
    · show (if 2 ≤ (labels.filter isColorLabel).length then
          some "Resistor identified with visible color bands" else none) =
        some "Resistor identified with visible color bands"
      rw [if_pos hp]

/-- C9: `interpretResults` preserves the evidence collections exactly:
`detectedLabels` has one entry per input label in input order with name and
confidence copied unchanged, and `detectedText` is exactly the
LINE-granularity detections in their original relative order with text and
confidence copied unchanged. -/
theorem interpretResults_evidence (labels : List Label)
    (textDetections : List TextDetection) :
    (interpretResults labels textDetections).detectedLabels.length = labels.length ∧
    (∀ i : ℕ, (interpretResults labels textDetections).detectedLabels[i]? =
      (labels[i]?).map (fun l => ⟨l.Name, l.Confidence⟩)) ∧
    (interpretResults labels textDetections).detectedText =
      (textDetections.filter (fun t => decide (t.«Type» = "LINE"))).map
        (fun t => ⟨t.DetectedText, t.Confidence⟩) := by
  have hl : (interpretResults labels textDetections).detectedLabels =
      labels.map (fun l => ⟨l.Name, l.Confidence⟩) := rfl
  refine ⟨?_, ?_, rfl⟩
  · rw [hl, List.length_map]
  · intro i
    rw [hl, List.getElem?_map]

/-- C1: the result of `interpretResults` satisfies the spec invariants:
`possibleTypes` is sorted by confidence descending; when `possibleTypes` is
non-empty the result's `type` and `confidence` are those of its head,
otherwise `type = "unknown"` and `confidence = 0`; and every entry of
`detectedText` comes from a detection of granularity `"LINE"`, regardless
of the input order of detections. -/
theorem interpretResults_invariants (labels : List Label)
    (textDetections : List TextDetection) :
    (interpretResults labels textDetections).possibleTypes.Pairwise
      (fun a b => b.confidence ≤ a.confidence) ∧
    (∀ m ms, (interpretResults labels textDetections).possibleTypes = m :: ms →
      (interpretResults labels textDetections).type = m.type ∧
      (interpretResults labels textDetections).confidence = m.confidence) ∧
    ((interpretResults labels textDetections).possibleTypes = [] →
      (interpretResults labels textDetections).type = "unknown" ∧
      (interpretResults labels textDetections).confidence = 0) ∧
    (∀ e ∈ (interpretResults labels textDetections).detectedText,
      ∃ t ∈ textDetections, t.«Type» = "LINE" ∧
        e.text = t.DetectedText ∧ e.confidence = t.Confidence) := by
  refine ⟨?_, ?_, ?_, ?_⟩
  · cases hct : identifyComponentType labels with
    | nil => simp [interpretResults, hct]
    | cons m ms =>
      have hp := pairwise_identifyComponentType labels
      rw [hct] at hp
      simpa [interpretResults, hct] using hp
  · intro m ms h
    cases hct : identifyComponentType labels with
    | nil => simp [interpretResults, hct] at h
    | cons m0 ms0 =>
      simp [interpretResults, hct] at h ⊢
      rw [h.1]
      exact ⟨rfl, rfl⟩
  · intro h
    cases hct : identifyComponentType labels with
    | nil => simp [interpretResults, hct]
    | cons m0 ms0 => simp [interpretResults, hct] at h
  · intro e he
    simp only [interpretResults, List.mem_map, List.mem_filter,
      decide_eq_true_eq] at he
    rcases he with ⟨t, ⟨ht, hline⟩, rfl⟩
    exact ⟨t, ht, hline, rfl, rfl⟩

/-- C1 witness: the invariants applied at a concrete non-empty input. -/
theorem interpretResults_invariants_witness :
    (interpretResults [⟨"Resistor", (80 : ℚ)⟩] []).type = "resistor" ∧
    (interpretResults [⟨"Resistor", (80 : ℚ)⟩] []).confidence = 80 :=
  (interpretResults_invariants [⟨"Resistor", (80 : ℚ)⟩] []).2.1
    ⟨"resistor", 80, "Resistor"⟩ [] (by decide)

/-- C2: `identifyComponentType` equals the reference definition: iterate
the fixed type table; for each type, the first label in original input
order whose lowercased name contains one of that type's keywords yields
that type's single match (so a later, higher-confidence label is never
considered, witnessed by the concrete conjunct); the collected matches are
sorted by confidence descending, and the sort is stable — the
equal-confidence subsequences of the output coincide with those of the
pre-sort match list. -/
theorem identifyComponentType_reference (labels : List Label) :
    identifyComponentType labels =
      sortMatchesDesc (typeKeywords.filterMap (fun tk =>
        ((labels.filter (fun label => labelMatchesKeywords tk.2 label)).head?).map
          (fun label => ⟨tk.1, label.Confidence, label.Name⟩))) ∧
    (identifyComponentType labels).Pairwise
      (fun a b => b.confidence ≤ a.confidence) ∧
    (∀ q : ℚ, (identifyComponentType labels).filter (fun m => decide (m.confidence = q)) =
      (typeKeywords.filterMap (fun tk =>
        (labels.find? (fun label => labelMatchesKeywords tk.2 label)).map
          (fun label => ⟨tk.1, label.Confidence, label.Name⟩))).filter
        (fun m => decide (m.confidence = q))) ∧
    identifyComponentType [⟨"Resistor", 80⟩, ⟨"resistor big", 99⟩] =
      [⟨"resistor", 80, "Resistor"⟩] := by
  refine ⟨?_, pairwise_identifyComponentType labels, ?_, by decide⟩
  · have hfun : (fun tk : String × List String =>
        (labels.find? (fun label => labelMatchesKeywords tk.2 label)).map
          (fun label => (⟨tk.1, label.Confidence, label.Name⟩ : TypeMatch))) =
        (fun tk =>
          ((labels.filter (fun label => labelMatchesKeywords tk.2 label)).head?).map
            (fun label => ⟨tk.1, label.Confidence, label.Name⟩)) := by
      funext tk
      rw [find?_eq_head?_filter]
    rw [identifyComponentType, hfun]
  · intro q
    exact filter_sortMatchesDesc q _

theorem newline_shift (lit tail : String) (h : ∃ l2, lit = "\n" ++ l2) :
    ∃ r2, lit ++ tail = "\n" ++ r2 := by
  rcases h with ⟨l2, hl⟩
  exact ⟨l2 ++ tail, by rw [hl, String.append_assoc]⟩

theorem append_congr_right {a b c : String} (h : b = c) : a ++ b = a ++ c := by
  rw [h]

theorem lit_assoc (l1 l2 l12 t : String) (h : l1 ++ l2 = l12) :
    l12 ++ t = l1 ++ (l2 ++ t) := by
  rw [← h, String.append_assoc]

/-- C7: the summary's first line is always
`"Identified as: <type> (<confidence to one decimal>% confidence)"` (the
remainder is empty or starts on a new line); for a resistor result the
value line and the color-bands line are mutually exclusive with the value
line taking priority; and an unknown zero-confidence result renders as
exactly `"Identified as: unknown (0.0% confidence)"`. -/
theorem generateIdentificationSummary_format (r : ComponentData) :
    (∃ rest, generateIdentificationSummary r =
        ("Identified as: " ++ r.type ++ " (" ++ toFixed1 r.confidence ++ "% confidence)")
          ++ rest ∧
        (rest = "" ∨ ∃ rest2, rest = "\n" ++ rest2)) ∧
    (∀ ra, r.type = "resistor" → r.analysis.resistor = some ra →
      (jsTruthy ra.estimatedValue = true →
        generateIdentificationSummary r =
          ("Identified as: " ++ r.type ++ " (" ++ toFixed1 r.confidence ++ "% confidence)")
            ++ ("\nEstimated value: " ++ ra.estimatedValue.getD "")) ∧
      (jsTruthy ra.estimatedValue = false → ra.hasColorBands = true →
        generateIdentificationSummary r =
          ("Identified as: " ++ r.type ++ " (" ++ toFixed1 r.confidence ++ "% confidence)")
            ++ ("\nColor bands detected: " ++ String.intercalate ", " ra.detectedColors))) ∧
    (r.type = "unknown" → r.confidence = 0 →
      generateIdentificationSummary r = "Identified as: unknown (0.0% confidence)") := by
  refine ⟨?_, ?_, ?_⟩
  · by_cases h1 : r.type = "resistor"
    · cases hra : r.analysis.resistor with
      | none =>
        exact ⟨"", by simp [generateIdentificationSummary, h1, hra], Or.inl rfl⟩
      | some ra =>
        by_cases ht : jsTruthy ra.estimatedValue = true
        · refine ⟨"\nEstimated value: " ++ ra.estimatedValue.getD "", ?_,
            Or.inr (newline_shift _ _ ⟨"Estimated value: ", by decide⟩)⟩
          simp [generateIdentificationSummary, h1, hra, ht, String.append_assoc]
          exact append_congr_right (append_congr_right (lit_assoc _ _ _ _ (by decide)))
        · by_cases hb : ra.hasColorBands = true
          · refine ⟨"\nColor bands detected: " ++ String.intercalate ", " ra.detectedColors,
              ?_, Or.inr (newline_shift _ _ ⟨"Color bands detected: ", by decide⟩)⟩
            simp [generateIdentificationSummary, h1, hra, ht, hb, String.append_assoc]
            exact append_congr_right (append_congr_right (lit_assoc _ _ _ _ (by decide)))
          · exact ⟨"", by simp [generateIdentificationSummary, h1, hra, ht, hb], Or.inl rfl⟩
    · by_cases h2 : r.type = "capacitor"
      · cases hca : r.analysis.capacitor with
        | none =>
          exact ⟨"", by simp [generateIdentificationSummary, h1, h2, hca], Or.inl rfl⟩
        | some ca =>
          by_cases he : jsTruthy ca.estimatedValue = true
          · by_cases hv : jsTruthy ca.voltage = true
            · refine ⟨"\nEstimated value: " ++ (ca.estimatedValue.getD "" ++
                  ("\nRated voltage: " ++ ca.voltage.getD "")), ?_,
                Or.inr (newline_shift _ _ ⟨"Estimated value: ", by decide⟩)⟩
              simp [generateIdentificationSummary, h1, h2, hca, he, hv, String.append_assoc]
              exact append_congr_right (append_congr_right (lit_assoc _ _ _ _ (by decide)))
            · refine ⟨"\nEstimated value: " ++ ca.estimatedValue.getD "", ?_,
                Or.inr (newline_shift _ _ ⟨"Estimated value: ", by decide⟩)⟩
              simp [generateIdentificationSummary, h1, h2, hca, he, hv, String.append_assoc]
              exact append_congr_right (append_congr_right (lit_assoc _ _ _ _ (by decide)))
          · by_cases hv : jsTruthy ca.voltage = true
            · refine ⟨"\nRated voltage: " ++ ca.voltage.getD "", ?_,
                Or.inr (newline_shift _ _ ⟨"Rated voltage: ", by decide⟩)⟩
              simp [generateIdentificationSummary, h1, h2, hca, he, hv, String.append_assoc]
              exact append_congr_right (append_congr_right (lit_assoc _ _ _ _ (by decide)))
            · exact ⟨"", by simp [generateIdentificationSummary, h1, h2, hca, he, hv],
                Or.inl rfl⟩
      · by_cases h3 : r.type = "integrated_circuit"
        · cases hic : r.analysis.ic with
          | none =>
            exact ⟨"", by simp [generateIdentificationSummary, h1, h2, h3, hic], Or.inl rfl⟩
          | some ic =>
            by_cases hn : 0 < ic.partNumbers.length
            · refine ⟨"\nDetected part numbers: " ++ String.intercalate ", " ic.partNumbers,
                ?_, Or.inr (newline_shift _ _ ⟨"Detected part numbers: ", by decide⟩)⟩
              simp [generateIdentificationSummary, h1, h2, h3, hic, hn, String.append_assoc]
              exact append_congr_right (append_congr_right (lit_assoc _ _ _ _ (by decide)))
            · exact ⟨"", by simp [generateIdentificationSummary, h1, h2, h3, hic, hn],
                Or.inl rfl⟩
        · exact ⟨"", by simp [generateIdentificationSummary, h1, h2, h3], Or.inl rfl⟩
  · intro ra h1 hra
    constructor
    · intro ht
      simp [generateIdentificationSummary, h1, hra, ht, String.append_assoc]
      exact append_congr_right (append_congr_right (lit_assoc _ _ _ _ (by decide)))
    · intro ht hb
      simp [generateIdentificationSummary, h1, hra, ht, hb, String.append_assoc]
      exact append_congr_right (append_congr_right (lit_assoc _ _ _ _ (by decide)))
  · intro h1 h2
    simp only [generateIdentificationSummary, h1, h2]
    rw [if_neg (by decide : ¬ ("unknown" : String) = "resistor"),
      if_neg (by decide : ¬ ("unknown" : String) = "capacitor"),
      if_neg (by decide : ¬ ("unknown" : String) = "integrated_circuit")]
    decide

/-- C7 witness: the format theorem applied to the unknown zero-confidence
result. -/
theorem generateIdentificationSummary_format_witness :
    generateIdentificationSummary
        { confidence := 0, type := "unknown", possibleTypes := [],
          detectedLabels := [], detectedText := [],
          analysis := { resistor := none, capacitor := none, ic := none } } =
      "Identified as: unknown (0.0% confidence)" :=
  (generateIdentificationSummary_format
      { confidence := 0, type := "unknown", possibleTypes := [],
        detectedLabels := [], detectedText := [],
        analysis := { resistor := none, capacitor := none, ic := none } }).2.2 rfl rfl

/-- C6 witness: the color-band characterisation applied at the labels
`["red band", "brown band"]`, discharging the band-count hypothesis. -/
theorem analyzeResistor_colorBands_witness :
    (analyzeResistor [⟨"red band", (90 : ℚ)⟩, ⟨"brown band", 90⟩] []).detectedColors =
      (([⟨"red band", (90 : ℚ)⟩, ⟨"brown band", 90⟩] : List Label).filter
        isColorLabel).map (fun l => l.Name) ∧
    (analyzeResistor [⟨"red band", (90 : ℚ)⟩, ⟨"brown band", 90⟩] []).note =
      some "Resistor identified with visible color bands" :=
  (analyzeResistor_colorBands [⟨"red band", (90 : ℚ)⟩, ⟨"brown band", 90⟩] []).2.1
    (by decide)
